import Mathlib

/-!
# Verification of the CipherMint encrypted-identity / compliant-token core

Shallow embedding of the three Solidity contracts (`CompliantERC20`,
`IdentityRegistry`, `ComplianceRules`) and of the backend KYC webhook
handler (`backend/src/routes/kyc.ts`), together with proofs and refutations
of the specification claims about them.

Modelling conventions:
* Addresses and name hashes are `Nat`; `0` plays the role of the Solidity
  zero address / zero `bytes32` (the mapping default and sentinel).
* Encrypted values are modelled by their plaintext contents: `euint64`
  and `euint8` become `Nat` with explicit wrap-around arithmetic
  (`% 2^64` / `% 2^256`-free modular helpers below), `ebool` becomes
  `Bool`.  `FHE.select c a b` is `if c then a else b`, `FHE.and` / `or` /
  `not` are the boolean operations.  Decrypt grants (`FHE.allow`) have no
  effect on values and are not tracked.
* A mapping slot whose `isInitialized` status matters in the source
  (`claimedMints`, `verificationResults`, `birthYearOffsets`) is modelled
  with `Option`; a mapping whose default value is read as plain zero is a
  total function defaulting to `0`.
* Reverts are `Except.error` with the contract's custom error.
-/

/-- `2^64`, the modulus of `euint64` arithmetic. -/
def U64 : Nat := 18446744073709551616

/-- `type(uint64).max`. -/
def U64MAX : Nat := 18446744073709551615

/-- Wrapping 64-bit addition (`FHE.add` on `euint64`). -/
def add64 (a b : Nat) : Nat := (a + b) % U64

/-- Wrapping 64-bit subtraction (`FHE.sub` on `euint64`). -/
def sub64 (a b : Nat) : Nat := (a + (U64 - b % U64)) % U64

/-- Wrapping 8-bit subtraction (`FHE.sub` on `euint8`). -/
def sub8 (a b : Nat) : Nat := (a + (256 - b % 256)) % 256

/-! ## CompliantERC20 (`contracts/CompliantERC20.sol`)

The token's calls into the external `IComplianceChecker` are abstracted by
a verdict oracle `Nat → Bool` stored in `checker` (`none` models
`complianceChecker == address(0)`).  This is faithful because the token
only ever consumes the decrypted meaning of the returned `ebool`, and no
token operation mutates the registry state that the verdict is computed
from. -/

/-- Events emitted by `CompliantERC20`. -/
inductive TokenEvent where
  | Transfer (sender recipient : Nat)
  | Approval (owner spender : Nat)
  | Mint (recipient : Nat) (amount : Nat)
  | ComplianceCheckerUpdated (checker : Nat)
  | OwnershipTransferStarted (currentOwner pendingOwner : Nat)
  | OwnershipTransferred (previousOwner newOwner : Nat)
deriving DecidableEq, Repr

/-- Custom errors of `CompliantERC20`. -/
inductive TokenErr where
  | OnlyOwner
  | OnlyPendingOwner
  | InvalidOwner
  | ComplianceCheckerNotSet
  | UnauthorizedCiphertext
  | TotalSupplyOverflow
deriving DecidableEq, Repr

/-- Storage of `CompliantERC20`. -/
structure TokenState where
  owner : Nat
  pendingOwner : Nat
  totalSupply : Nat
  balances : Nat → Nat
  allowances : Nat → Nat → Nat
  claimedMints : Nat → Option Bool
  checker : Option (Nat → Bool)
  events : List TokenEvent

/-- `CLAIM_AMOUNT` constant. -/
def CLAIM_AMOUNT : Nat := 100

/-- `mint(address to, uint256 amount)` (owner-only, plaintext amount). -/
def mint (s : TokenState) (sender recipient amount : Nat) :
    Except TokenErr TokenState :=
  if sender ≠ s.owner then .error .OnlyOwner
  else if U64MAX < amount then .error .TotalSupplyOverflow
  else if U64MAX < s.totalSupply + amount then .error .TotalSupplyOverflow
  else .ok { s with
    balances := Function.update s.balances recipient
      (add64 (s.balances recipient) amount),
    totalSupply := s.totalSupply + amount,
    events := s.events ++ [.Mint recipient amount] }

/-- `claimTokens()`: one-time compliant claim of `CLAIM_AMOUNT`.
Mirrors the source line by line; note that it does NOT touch
`totalSupply` and emits no event. -/
def claimTokens (s : TokenState) (sender : Nat) :
    Except TokenErr (TokenState × Bool) :=
  match s.checker with
  | none => .error .ComplianceCheckerNotSet
  | some compliant =>
    let isCompliant := compliant sender
    let alreadyClaimed := (s.claimedMints sender).getD false
    let canClaim := isCompliant && !alreadyClaimed
    let mintAmount := if canClaim then CLAIM_AMOUNT else 0
    let newBalance := add64 (s.balances sender) mintAmount
    let newClaimed := alreadyClaimed || canClaim
    .ok ({ s with
      balances := Function.update s.balances sender newBalance,
      claimedMints := Function.update s.claimedMints sender (some newClaimed) },
      true)

/-- `_transfer(address from, address to, euint64 amount)`: the branch-free
internal transfer.  Both new balances are computed from the pre-state and
then written `from` first, `to` second, exactly as in the source — so for
`fromAddr = toAddr` the second write overwrites the first. -/
def _transfer (s : TokenState) (fromAddr toAddr amount : Nat) :
    TokenState × Bool :=
  let canTransfer :=
    match s.checker with
    | some compliant =>
      (compliant fromAddr && compliant toAddr) &&
        decide (amount ≤ s.balances fromAddr)
    | none => decide (amount ≤ s.balances fromAddr)
  let actualAmount := if canTransfer then amount else 0
  let newFromBalance := sub64 (s.balances fromAddr) actualAmount
  let newToBalance := add64 (s.balances toAddr) actualAmount
  let balances1 := Function.update s.balances fromAddr newFromBalance
  let balances2 := Function.update balances1 toAddr newToBalance
  ({ s with balances := balances2,
            events := s.events ++ [.Transfer fromAddr toAddr] }, true)

/-- `transfer(address to, externalEuint64, bytes)` after a successful
`FHE.fromExternal` (an invalid proof reverts inside the substrate, before
this body runs). -/
def transfer (s : TokenState) (sender toAddr amount : Nat) :
    TokenState × Bool :=
  _transfer s sender toAddr amount

/-- `transfer(address to, euint64 amount)`: the overload that requires the
caller to hold a grant on the ciphertext handle (`FHE.isSenderAllowed`).
`senderAllowed` is the substrate's answer for (`amount`, `sender`). -/
def transferEuint (s : TokenState) (sender toAddr amount : Nat)
    (senderAllowed : Bool) : Except TokenErr (TokenState × Bool) :=
  if senderAllowed = false then .error .UnauthorizedCiphertext
  else .ok (_transfer s sender toAddr amount)

/-- `approve(address spender, externalEuint64, bytes)`. -/
def approve (s : TokenState) (sender spender amount : Nat) :
    TokenState × Bool :=
  ({ s with
      allowances := Function.update s.allowances sender
        (Function.update (s.allowances sender) spender amount),
      events := s.events ++ [.Approval sender spender] }, true)

/-- `transferFrom(address from, address to, externalEuint64, bytes)`:
branch-free allowance spend followed by the internal transfer. -/
def transferFrom (s : TokenState) (sender fromAddr toAddr amount : Nat) :
    TokenState × Bool :=
  let hasAllowance := decide (amount ≤ s.allowances fromAddr sender)
  let newAllowance :=
    if hasAllowance then sub64 (s.allowances fromAddr sender) amount
    else s.allowances fromAddr sender
  let s1 := { s with
    allowances := Function.update s.allowances fromAddr
      (Function.update (s.allowances fromAddr) sender newAllowance) }
  let actualAmount := if hasAllowance then amount else 0
  _transfer s1 fromAddr toAddr actualAmount

/-- Sum of the balances of a finite family of addresses. -/
def sumBalancesOn (s : TokenState) (addrs : List Nat) : Nat :=
  (addrs.map s.balances).sum

/-- A fresh token deployment whose compliance checker deems every address
compliant (`token0.checker = some (fun _ => true)` stands for a deployed
checker contract whose verdict for the relevant addresses is true). -/
def token0 : TokenState :=
  { owner := 0
    pendingOwner := 0
    totalSupply := 0
    balances := fun _ => 0
    allowances := fun _ _ => 0
    claimedMints := fun _ => none
    checker := some (fun _ => true)
    events := [] }


/-! ## IdentityRegistry (`contracts/IdentityRegistry.sol`)

`verificationResults` is keyed in the source by `keccak256(abi.encodePacked(user, minAge))`;
we model the key as the pair `(user, minAge)` (keccak collisions are out of
scope, as in every Solidity mapping-of-structs idiom).  `block.timestamp`
is an explicit `now` argument; on a real chain it is positive. -/

/-- Custom errors of `IdentityRegistry` (including the interface errors). -/
inductive RegErr where
  | OnlyOwner
  | OnlyPendingOwner
  | InvalidOwner
  | OnlyRegistrar
  | DuplicateName
  | NotAttested
  | NotRegistered
  | NoVerificationResult
  | AccessProhibited
deriving DecidableEq, Repr

/-- Storage of `IdentityRegistry`. -/
structure RegState where
  owner : Nat
  pendingOwner : Nat
  registrars : Nat → Bool
  birthYearOffsets : Nat → Option Nat
  fullNameHashes : Nat → Nat
  nameHashToAddress : Nat → Nat
  currentYearOffset : Nat
  attestationTimestamp : Nat → Nat
  verificationResults : Nat → Nat → Option Bool

/-- Constructor: deployer becomes owner and first registrar, the current
year offset is initialised to `126` (2026). -/
def initialRegState (deployer : Nat) : RegState :=
  { owner := deployer
    pendingOwner := 0
    registrars := Function.update (fun _ => false) deployer true
    birthYearOffsets := fun _ => none
    fullNameHashes := fun _ => 0
    nameHashToAddress := fun _ => 0
    currentYearOffset := 126
    attestationTimestamp := fun _ => 0
    verificationResults := fun _ _ => none }

/-- `isAttested(address user)`. -/
def isAttested (s : RegState) (user : Nat) : Bool :=
  decide (0 < s.attestationTimestamp user)

/-- `attestIdentity(user, encBirthYearOffset, nameHash, proof)`:
registrar-only, duplicate-name guarded, releases the caller's previous
reverse-index slot on re-attestation. -/
def attestIdentity (s : RegState) (sender user encBirthYearOffset nameHash now : Nat) :
    Except RegErr RegState :=
  if s.registrars sender = false then .error .OnlyRegistrar
  else
    let existingUser := s.nameHashToAddress nameHash
    if existingUser ≠ 0 ∧ existingUser ≠ user then .error .DuplicateName
    else
      let birthYear := encBirthYearOffset % 256
      let rev1 :=
        if 0 < s.attestationTimestamp user then
          let oldNameHash := s.fullNameHashes user
          if oldNameHash ≠ 0 ∧ oldNameHash ≠ nameHash then
            Function.update s.nameHashToAddress oldNameHash 0
          else s.nameHashToAddress
        else s.nameHashToAddress
      .ok { s with
        birthYearOffsets := Function.update s.birthYearOffsets user (some birthYear),
        fullNameHashes := Function.update s.fullNameHashes user nameHash,
        nameHashToAddress := Function.update rev1 nameHash user,
        attestationTimestamp := Function.update s.attestationTimestamp user now }

/-- `revokeIdentity(address user)`: clears the record, releases the
reverse-index slot, stores an encrypted zero offset.  `verificationResults`
is NOT touched. -/
def revokeIdentity (s : RegState) (sender user : Nat) : Except RegErr RegState :=
  if s.registrars sender = false then .error .OnlyRegistrar
  else if s.attestationTimestamp user = 0 then .error .NotAttested
  else
    let nameHash := s.fullNameHashes user
    let rev1 :=
      if nameHash ≠ 0 then Function.update s.nameHashToAddress nameHash 0
      else s.nameHashToAddress
    .ok { s with
      nameHashToAddress := rev1,
      birthYearOffsets := Function.update s.birthYearOffsets user (some 0),
      fullNameHashes := Function.update s.fullNameHashes user 0,
      attestationTimestamp := Function.update s.attestationTimestamp user 0 }

/-- `_isAtLeastAge(address user, uint8 minAge)`: homomorphic age check;
stores the verdict under `(user, minAge)` and returns it.  `sender` is
`msg.sender`, which only receives a decrypt grant (not modelled). -/
def _isAtLeastAge (s : RegState) (sender user minAge : Nat) :
    Except RegErr (RegState × Bool) :=
  if s.attestationTimestamp user = 0 then .error .NotAttested
  else
    match s.birthYearOffsets user with
    | none => .error .NotRegistered
    | some off =>
      let maxBirthYearOffset := sub8 s.currentYearOffset minAge
      let meetsAge := decide (off ≤ maxBirthYearOffset)
      .ok ({ s with
        verificationResults := Function.update s.verificationResults user
          (Function.update (s.verificationResults user) minAge (some meetsAge)) },
        meetsAge)

/-- `isAtLeastAge(address user, uint8 minAge)`. -/
def isAtLeastAge (s : RegState) (sender user minAge : Nat) :
    Except RegErr (RegState × Bool) :=
  _isAtLeastAge s sender user minAge

/-- `isOver18(address user)`. -/
def isOver18 (s : RegState) (sender user : Nat) : Except RegErr (RegState × Bool) :=
  _isAtLeastAge s sender user 18

/-- `getVerificationResult(address user, uint8 minAge)`: view accessor over
the stored verdicts; reverts `NoVerificationResult` on an uninitialised slot. -/
def getVerificationResult (s : RegState) (user minAge : Nat) : Except RegErr Bool :=
  match s.verificationResults user minAge with
  | none => .error .NoVerificationResult
  | some r => .ok r

/-- `updateCurrentYear(uint8 newOffset)` (owner-only). -/
def updateCurrentYear (s : RegState) (sender newOffset : Nat) :
    Except RegErr RegState :=
  if sender ≠ s.owner then .error .OnlyOwner
  else .ok { s with currentYearOffset := newOffset % 256 }

/-- `addRegistrar(address registrar)` (owner-only). -/
def addRegistrar (s : RegState) (sender registrar : Nat) : Except RegErr RegState :=
  if sender ≠ s.owner then .error .OnlyOwner
  else .ok { s with registrars := Function.update s.registrars registrar true }

/-- `removeRegistrar(address registrar)` (owner-only). -/
def removeRegistrar (s : RegState) (sender registrar : Nat) : Except RegErr RegState :=
  if sender ≠ s.owner then .error .OnlyOwner
  else .ok { s with registrars := Function.update s.registrars registrar false }

/-- `transferOwnership(address newOwner)` (owner-only, two-step). -/
def regTransferOwnership (s : RegState) (sender newOwner : Nat) :
    Except RegErr RegState :=
  if sender ≠ s.owner then .error .OnlyOwner
  else if newOwner = 0 then .error .InvalidOwner
  else .ok { s with pendingOwner := newOwner }

/-- `acceptOwnership()`. -/
def regAcceptOwnership (s : RegState) (sender : Nat) : Except RegErr RegState :=
  if sender ≠ s.pendingOwner then .error .OnlyPendingOwner
  else .ok { s with owner := s.pendingOwner, pendingOwner := 0 }

/-- `grantAccessTo(address grantee)`: only extends a decrypt grant, which
is not part of the modelled state. -/
def grantAccessTo (s : RegState) (sender grantee : Nat) : Except RegErr RegState :=
  if s.attestationTimestamp sender = 0 then .error .NotAttested
  else .ok s

/-! ## ComplianceRules (`contracts/ComplianceRules.sol`)

`checkCompliance` makes reentrant-free external calls into the registry,
so it is modelled as a function of both states.  `rulesAddr` is the
address of the deployed `ComplianceRules` contract: it is the `msg.sender`
the registry sees for the nested `isOver18` call. -/

/-- Events emitted by `ComplianceRules`. -/
inductive CompEvent where
  | ComplianceChecked (user : Nat)
  | AuthorizedCallerUpdated (caller : Nat) (allowed : Bool)
  | OwnershipTransferStarted (currentOwner pendingOwner : Nat)
  | OwnershipTransferred (previousOwner newOwner : Nat)
deriving DecidableEq, Repr

/-- Custom errors of `ComplianceRules`; a revert raised inside the nested
registry call aborts the whole transaction and is surfaced as
`RegistryRevert`. -/
inductive CompErr where
  | OnlyOwner
  | OnlyPendingOwner
  | InvalidOwner
  | RegistryNotSet
  | CallerNotAuthorized
  | AccessProhibited
  | RegistryRevert (e : RegErr)
deriving DecidableEq, Repr

/-- Storage of `ComplianceRules`. -/
structure CompState where
  owner : Nat
  pendingOwner : Nat
  complianceResults : Nat → Option Bool
  authorizedCallers : Nat → Bool
  events : List CompEvent

/-- `setAuthorizedCaller(address caller, bool allowed)` (owner-only). -/
def setAuthorizedCaller (cs : CompState) (sender caller : Nat) (allowed : Bool) :
    Except CompErr CompState :=
  if sender ≠ cs.owner then .error .OnlyOwner
  else .ok { cs with
    authorizedCallers := Function.update cs.authorizedCallers caller allowed,
    events := cs.events ++ [.AuthorizedCallerUpdated caller allowed] }

/-- `checkCompliance(address user)`: guarded by `onlyAuthorizedOrSelf`;
short-circuits to an encrypted `false` for an unattested user (note: this
early-return path stores the cache entry but does NOT emit
`ComplianceChecked`), otherwise re-exports the registry's `isOver18`
verdict, caches it and emits the event. -/
def checkCompliance (reg : RegState) (cs : CompState) (rulesAddr sender user : Nat) :
    Except CompErr (RegState × CompState × Bool) :=
  if sender ≠ user ∧ cs.authorizedCallers sender = false then
    .error .CallerNotAuthorized
  else if isAttested reg user = false then
    .ok (reg,
      { cs with complianceResults := Function.update cs.complianceResults user (some false) },
      false)
  else
    match isOver18 reg rulesAddr user with
    | .error e => .error (.RegistryRevert e)
    | .ok (reg', verdict) =>
      .ok (reg',
        { cs with
          complianceResults := Function.update cs.complianceResults user (some verdict),
          events := cs.events ++ [.ComplianceChecked user] },
        verdict)

/-- `getComplianceResult(address user)`: view over the cache; the
`FHE.isSenderAllowed` gate is summarised by `senderAllowed` (the substrate's
ACL answer for the stored handle and `msg.sender`). -/
def getComplianceResult (cs : CompState) (user : Nat) (senderAllowed : Bool) :
    Except CompErr (Option Bool) :=
  if senderAllowed = false then .error .AccessProhibited
  else .ok (cs.complianceResults user)

/-- `hasComplianceResult(address user)`. -/
def hasComplianceResult (cs : CompState) (user : Nat) : Bool :=
  (cs.complianceResults user).isSome

/-! ## Backend KYC webhook (`backend/src/routes/kyc.ts`, POST /api/kyc/webhook)

The handler is a pure function of the request, the session store and the
environment.  External effects are parameters: `hmacSha256` is the digest
function used by `verifyDiditSimpleSignature` (deterministic, so an
identical replay verifies exactly like the original delivery), `parseYear`
is `new Date(s).getFullYear()` (`none` when `isNaN`), `sdkInitOk` and
`attestSuccess` are the outcomes of `initializeZamaSDK` and
`attestIdentity`.  Attestation attempts are returned as an explicit list
so that "no additional on-chain attestation write" is directly statable. -/

/-- `KycSession.status ∈ {CREATED, VERIFIED, FAILED}`. -/
inductive KycStatus where
  | CREATED
  | VERIFIED
  | FAILED
deriving DecidableEq, Repr

/-- One row of the `KycSession` table. -/
structure KycSession where
  id : Nat
  walletAddress : String
  diditSessionId : String
  status : KycStatus
deriving DecidableEq, Repr

/-- The relational store, reduced to the `KycSession` table. -/
structure KycDb where
  sessions : List KycSession
deriving DecidableEq, Repr

/-- `prisma.kycSession.findUnique({ where: { diditSessionId } })`. -/
def findByDiditSessionId (db : KycDb) (sid : String) : Option KycSession :=
  db.sessions.find? (fun s => s.diditSessionId == sid)

/-- `prisma.kycSession.update({ where: { id }, data: { status } })`. -/
def updateStatus (db : KycDb) (sessId : Nat) (st : KycStatus) : KycDb :=
  { sessions := db.sessions.map (fun s => if s.id = sessId then { s with status := st } else s) }

/-- One element of `decision.id_verifications`. -/
structure IdVerification where
  full_name : Option String
  first_name : Option String
  last_name : Option String
  date_of_birth : Option String
deriving DecidableEq, Repr

/-- The `decision` object of the webhook body. -/
structure Decision where
  id_verifications : List IdVerification
deriving DecidableEq, Repr

/-- The parsed JSON body of the webhook request. -/
structure WebhookBody where
  session_id : Option String
  status : Option String
  webhook_type : Option String
  decision : Option Decision
deriving DecidableEq, Repr

/-- HTTP statuses the handler can answer with (500 arises only from an
unexpected exception, which the pure model cannot raise). -/
inductive WebhookResp where
  | ok200
  | err400
  | err401
deriving DecidableEq, Repr

/-- A call to `attestIdentity` in `lib/zama.ts` (an on-chain attestation
write attempt). -/
structure AttestCall where
  userAddress : String
  birthYear : Nat
  fullName : String
deriving DecidableEq, Repr

/-- Environment and external-effect outcomes of one webhook delivery. -/
structure WebhookEnv where
  secret : Option String
  contractAddress : Option String
  hmacSha256 : String → String → String
  parseYear : String → Option Nat
  sdkInitOk : Bool
  attestSuccess : Bool

/-- JavaScript truthiness of an optional string (`undefined`/`null`/`""`
are falsy). -/
def jsTruthy : Option String → Bool
  | none => false
  | some s => !s.isEmpty

/-- `verifyDiditSimpleSignature` (`lib/didit.ts`): HMAC-SHA256 over
`timestamp:session_id:status:webhook_type`, compared in constant time
(modelled as string equality; the length pre-check cannot change the
boolean result). -/
def verifyDiditSimpleSignature (hmac : String → String → String)
    (signature timestamp sessionId status webhookType secret : Option String) : Bool :=
  if !(jsTruthy signature && jsTruthy timestamp && jsTruthy sessionId &&
       jsTruthy status && jsTruthy webhookType) then false
  else if !(jsTruthy secret) then false
  else
    let message := timestamp.getD "" ++ ":" ++ sessionId.getD "" ++ ":" ++
      status.getD "" ++ ":" ++ webhookType.getD ""
    signature.getD "" == hmac (secret.getD "") message

/-- Name extraction from `decision.id_verifications[0]` (prefer
`full_name`, else `first_name last_name`, all trimmed). -/
def extractName (decision : Option Decision) : String :=
  match decision with
  | none => ""
  | some d =>
    match d.id_verifications with
    | [] => ""
    | iv :: _ =>
      if jsTruthy iv.full_name then (iv.full_name.getD "").trim
      else if jsTruthy iv.first_name || jsTruthy iv.last_name then
        ((iv.first_name.getD "").trim ++ " " ++ (iv.last_name.getD "").trim).trim
      else ""

/-- Birth-year extraction from `decision.id_verifications[0].date_of_birth`
via `new Date(...)`. -/
def extractBirthYear (parseYear : String → Option Nat) (decision : Option Decision) :
    Option Nat :=
  match decision with
  | none => none
  | some d =>
    match d.id_verifications with
    | [] => none
    | iv :: _ =>
      match iv.date_of_birth with
      | none => none
      | some dob => if dob.isEmpty then none else parseYear dob

/-- The POST /api/kyc/webhook handler.  Returns the updated store, the
HTTP status, and the list of on-chain attestation write attempts. -/
def webhookHandler (env : WebhookEnv) (db : KycDb) (body : WebhookBody)
    (sigHeader tsHeader : Option String) : KycDb × WebhookResp × List AttestCall :=
  let sessionId := body.session_id
  let status := body.status
  let isValid := verifyDiditSimpleSignature env.hmacSha256 sigHeader tsHeader
    sessionId status body.webhook_type env.secret
  if isValid = false then (db, .err401, [])
  else if !(jsTruthy sessionId && jsTruthy status) then (db, .err400, [])
  else
    match findByDiditSessionId db (sessionId.getD "") with
    | none => (db, .ok200, [])
    | some kycSession =>
      if kycSession.status ≠ KycStatus.CREATED then (db, .ok200, [])
      else
        let normalizedStatus := (status.getD "").toLower
        if normalizedStatus == "failed" then
          (updateStatus db kycSession.id .FAILED, .ok200, [])
        else
          let isVerified := normalizedStatus == "verified" || normalizedStatus == "approved"
          if isVerified = false then (db, .ok200, [])
          else
            let extractedName := extractName body.decision
            if extractedName.isEmpty || 128 < extractedName.length then
              (updateStatus db kycSession.id .FAILED, .ok200, [])
            else
              match extractBirthYear env.parseYear body.decision with
              | none => (updateStatus db kycSession.id .FAILED, .ok200, [])
              | some birthYear =>
                if birthYear = 0 then
                  (updateStatus db kycSession.id .FAILED, .ok200, [])
                else
                  match env.contractAddress with
                  | none => (updateStatus db kycSession.id .VERIFIED, .ok200, [])
                  | some _ =>
                    if env.sdkInitOk = false then
                      (updateStatus db kycSession.id .FAILED, .ok200, [])
                    else
                      let call : AttestCall :=
                        { userAddress := kycSession.walletAddress,
                          birthYear := birthYear,
                          fullName := extractedName }
                      if env.attestSuccess = false then
                        (updateStatus db kycSession.id .FAILED, .ok200, [call])
                      else
                        (updateStatus db kycSession.id .VERIFIED, .ok200, [call])

/-! ## Registry step relation and reachability

One step is one successful state-mutating external call.  `attest` steps
carry two modelling side conditions that hold on a real chain deployment:
`block.timestamp` is positive, and the attested `user` is not the zero
address (the spec's Orchestrator only attests wallet addresses; the
counterexample theorem for C5 shows what happens without the second
condition). -/

/-- One successful state-mutating call on `IdentityRegistry`. -/
inductive RegStep : RegState → RegState → Prop where
  | attest (s s' : RegState) (sender user enc nameHash now : Nat)
      (huser : user ≠ 0) (hnow : 0 < now)
      (h : attestIdentity s sender user enc nameHash now = .ok s') : RegStep s s'
  | revoke (s s' : RegState) (sender user : Nat)
      (h : revokeIdentity s sender user = .ok s') : RegStep s s'
  | ageCheck (s s' : RegState) (sender user minAge : Nat) (r : Bool)
      (h : _isAtLeastAge s sender user minAge = .ok (s', r)) : RegStep s s'
  | yearUpdate (s s' : RegState) (sender newOffset : Nat)
      (h : updateCurrentYear s sender newOffset = .ok s') : RegStep s s'
  | addReg (s s' : RegState) (sender registrar : Nat)
      (h : addRegistrar s sender registrar = .ok s') : RegStep s s'
  | removeReg (s s' : RegState) (sender registrar : Nat)
      (h : removeRegistrar s sender registrar = .ok s') : RegStep s s'
  | txOwner (s s' : RegState) (sender newOwner : Nat)
      (h : regTransferOwnership s sender newOwner = .ok s') : RegStep s s'
  | acceptOwner (s s' : RegState) (sender : Nat)
      (h : regAcceptOwnership s sender = .ok s') : RegStep s s'
  | grantAccess (s s' : RegState) (sender grantee : Nat)
      (h : grantAccessTo s sender grantee = .ok s') : RegStep s s'

/-- States reachable from a fresh deployment by `deployer`. -/
def RegReachable (deployer : Nat) (s : RegState) : Prop :=
  Relation.ReflTransGen RegStep (initialRegState deployer) s

/-- The inductive invariant behind name-hash uniqueness: every attested
address owns its reverse-index slot, unattested addresses hold no hash,
and the zero address is never attested. -/
def RegInv (s : RegState) : Prop :=
  (∀ u, 0 < s.attestationTimestamp u →
    s.nameHashToAddress (s.fullNameHashes u) = u) ∧
  (∀ u, s.attestationTimestamp u = 0 → s.fullNameHashes u = 0) ∧
  s.attestationTimestamp 0 = 0

/-! ## Concrete states used by counterexamples and witnesses -/

/-- Extract the success state of a registry call (defaults irrelevant). -/
def regOk (x : Except RegErr RegState) (dflt : RegState) : RegState :=
  match x with
  | .ok s => s
  | .error _ => dflt

/-- Fresh registry deployed by address `7`. -/
def reg0 : RegState := initialRegState 7

/-- Address `1` attested by registrar `7` with offset `90`, name hash `5`. -/
def regA : RegState := regOk (attestIdentity reg0 7 1 90 5 1) reg0

/-- `regA` after re-attesting address `1` with a new name hash `6`. -/
def regB : RegState := regOk (attestIdentity regA 7 1 91 6 2) reg0

/-- The ZERO address attested with name hash `5` (accepted by the code). -/
def regZero1 : RegState := regOk (attestIdentity reg0 7 0 90 5 1) reg0

/-- `regZero1` after address `1` is attested with the SAME name hash `5`
(also accepted, because the reverse index reads the zero address as a
vacant slot). -/
def regZero2 : RegState := regOk (attestIdentity regZero1 7 1 91 5 2) reg0

/-- Address `1` attested with offset `108 = 126 - 18`, the exact age
boundary for `minAge = 18`. -/
def regBoundary : RegState := regOk (attestIdentity reg0 7 1 108 5 1) reg0

/-- Address `1` attested with offset `109 = 126 - 18 + 1`, one year too
young for `minAge = 18`. -/
def regYoung : RegState := regOk (attestIdentity reg0 7 1 109 5 1) reg0

/-- Address `1` attested with birth-year offset `0` (born 1900). -/
def regWrapCex : RegState := regOk (attestIdentity reg0 7 1 0 5 1) reg0

/-- Fresh `ComplianceRules` deployed by `7`, no authorized callers. -/
def comp0 : CompState :=
  { owner := 7
    pendingOwner := 0
    complianceResults := fun _ => none
    authorizedCallers := fun _ => false
    events := [] }

/-- Token state with a compliance checker that approves every address:
used to evaluate `claimTokens` and self-transfers concretely. -/
def tokenSelf : TokenState :=
  { token0 with balances := Function.update (fun _ => 0) 1 100 }

/-- Token state whose checker approves only address `1`. -/
def tokenCW : TokenState :=
  { token0 with checker := some (fun a => decide (a = 1)) }

/-- Token state where owner `2` has granted spender `1` an allowance of `60`. -/
def tokenAllow : TokenState :=
  { token0 with
    allowances := Function.update (fun _ _ => 0) 2 (Function.update (fun _ => 0) 1 60) }

/-- Webhook environment for the concrete replay scenario: fixed digest
function, configured secret and registry address, healthy SDK. -/
def env0 : WebhookEnv :=
  { secret := some "s"
    contractAddress := some "0xreg"
    hmacSha256 := fun _ _ => "sig"
    parseYear := fun _ => some 1990
    sdkInitOk := true
    attestSuccess := true }

/-- A session that has already reached `VERIFIED`. -/
def sess0 : KycSession :=
  { id := 1
    walletAddress := "0xabc"
    diditSessionId := "didit-1"
    status := KycStatus.VERIFIED }

/-- Store holding only `sess0`. -/
def db0 : KycDb := { sessions := [sess0] }

/-- The replayed webhook body for `sess0`. -/
def body0 : WebhookBody :=
  { session_id := some "didit-1"
    status := some "Approved"
    webhook_type := some "status.updated"
    decision := some { id_verifications := [{
        full_name := some "Alice Smith"
        first_name := none
        last_name := none
        date_of_birth := some "1990-01-01" }] } }

/-! # Theorems -/

/-! ## Modular arithmetic helpers -/

theorem add64_eq_of_lt {a b : Nat} (h : a + b < U64) : add64 a b = a + b := by
  simp [add64, Nat.mod_eq_of_lt h]

theorem add64_zero {a : Nat} (h : a < U64) : add64 a 0 = a := by
  simp [add64, Nat.mod_eq_of_lt h]

theorem sub64_zero {a : Nat} (h : a < U64) : sub64 a 0 = a := by
  show (a + (U64 - 0 % U64)) % U64 = a
  rw [Nat.zero_mod, Nat.sub_zero, Nat.add_mod_right, Nat.mod_eq_of_lt h]

theorem sub64_eq_of_le {a b : Nat} (hba : b ≤ a) (ha : a < U64) :
    sub64 a b = a - b := by
  have hb : b < U64 := lt_of_le_of_lt hba ha
  have hbm : b % U64 = b := Nat.mod_eq_of_lt hb
  have h1 : a + (U64 - b) = (a - b) + U64 := by omega
  rw [sub64, hbm, h1, Nat.add_mod_right, Nat.mod_eq_of_lt (by omega)]

/-! ## C1 — conservation of supply -/

/-- C1: the claimed invariant `sum(balances) = totalSupply` is broken by
the code: a single successful `claimTokens` by a compliant address adds
`CLAIM_AMOUNT` to a balance but never increments `totalSupply`.  Starting
from a fresh deployment with an all-approving checker, one claim by
address `1` leaves the balance sum at `100` while `totalSupply` is `0`
(and the call reports success). -/
theorem claimTokens_breaks_conservation :
    (claimTokens token0 1).map
        (fun r => (sumBalancesOn r.1 [0, 1, 2, 3], r.1.totalSupply, r.2)) =
      .ok (100, 0, true) := rfl

/-! ## C2 — explicit rejection of structurally invalid requests -/

/-- C2: the token does NOT reject a self-transfer.  `transfer` with
`to = msg.sender` runs the normal branch-free path and returns `true`
without any revert — and because both new balances are computed from the
pre-state and the recipient write lands last, a compliant self-transfer of
`50` from a balance of `100` INFLATES the balance to `150`.  (The repo's
own test expects `SelfTransferNotAllowed` here; no such error exists in
the contract.) -/
theorem self_transfer_not_rejected :
    (transfer tokenSelf 1 1 50).2 = true ∧
    (transfer tokenSelf 1 1 50).1.balances 1 = 150 :=
  ⟨rfl, rfl⟩

/-! ## C3 — claim exactly once -/

/-- C3: from any state in which address `a` is compliant and has not yet
claimed (and its balance cannot overflow), calling `claimTokens` twice
increases the balance by `CLAIM_AMOUNT` exactly once: the first call adds
`CLAIM_AMOUNT`, the second adds nothing, and both calls return `true`. -/
theorem claimTokens_exactly_once (s : TokenState) (c : Nat → Bool) (a : Nat)
    (hc : s.checker = some c) (hca : c a = true)
    (hfresh : (s.claimedMints a).getD false = false)
    (hb : s.balances a + CLAIM_AMOUNT < U64) :
    (claimTokens s a).map (fun r => (r.1.balances a, r.2)) =
      .ok (s.balances a + CLAIM_AMOUNT, true) ∧
    ((claimTokens s a).bind (fun r => claimTokens r.1 a)).map
        (fun r => (r.1.balances a, r.2)) =
      .ok (s.balances a + CLAIM_AMOUNT, true) := by
  have h1 : claimTokens s a = .ok ({ s with
      balances := Function.update s.balances a (add64 (s.balances a) CLAIM_AMOUNT),
      claimedMints := Function.update s.claimedMints a (some true) }, true) := by
    simp [claimTokens, hc, hca, hfresh]
  have hlt : s.balances a < U64 := by
    have : (0:Nat) < CLAIM_AMOUNT := by decide
    omega
  constructor
  · rw [h1]
    simp [Except.map, Function.update_same, add64_eq_of_lt hb]
  · rw [h1]
    have h2 : claimTokens { s with
        balances := Function.update s.balances a (add64 (s.balances a) CLAIM_AMOUNT),
        claimedMints := Function.update s.claimedMints a (some true) } a =
      .ok ({ s with
        balances := Function.update
          (Function.update s.balances a (add64 (s.balances a) CLAIM_AMOUNT)) a
          (add64 (Function.update s.balances a (add64 (s.balances a) CLAIM_AMOUNT) a) 0),
        claimedMints := Function.update
          (Function.update s.claimedMints a (some true)) a (some true) }, true) := by
      simp [claimTokens, hc, Function.update_same]
    rw [Except.bind, h2]
    simp [Except.map, Function.update_same, add64_eq_of_lt hb, add64_zero hb]

/-- Witness for C3 at the fresh all-compliant deployment, claimant `1`. -/
theorem claimTokens_exactly_once_witness :
    (claimTokens token0 1).map (fun r => (r.1.balances 1, r.2)) =
      .ok (100, true) ∧
    ((claimTokens token0 1).bind (fun r => claimTokens r.1 1)).map
        (fun r => (r.1.balances 1, r.2)) =
      .ok (100, true) :=
  claimTokens_exactly_once token0 (fun _ => true) 1 rfl rfl rfl (by decide)

/-! ## C4 — silent failure of a non-compliant transfer -/

/-- C4: with a compliance checker installed, a transfer whose sender is
non-compliant (recipient compliant, distinct addresses) leaves both
parties' balances unchanged, returns `true`, and still appends a
`Transfer` event. -/
theorem transfer_noncompliant_sender_silent (s : TokenState) (c : Nat → Bool)
    (fromAddr toAddr amount : Nat)
    (hc : s.checker = some c) (hfrom : c fromAddr = false) (hto : c toAddr = true)
    (hne : fromAddr ≠ toAddr)
    (hbf : s.balances fromAddr < U64) (hbt : s.balances toAddr < U64) :
    (_transfer s fromAddr toAddr amount).1.balances fromAddr = s.balances fromAddr ∧
    (_transfer s fromAddr toAddr amount).1.balances toAddr = s.balances toAddr ∧
    (_transfer s fromAddr toAddr amount).2 = true ∧
    (_transfer s fromAddr toAddr amount).1.events =
      s.events ++ [TokenEvent.Transfer fromAddr toAddr] := by
  refine ⟨?_, ?_, rfl, by simp [_transfer]⟩
  · simp [_transfer, hc, hfrom, Function.update_noteq hne, Function.update_same,
      sub64_zero hbf]
  · simp [_transfer, hc, hfrom, Function.update_same, add64_zero hbt]

/-- Witness for C4: non-compliant sender `2`, compliant recipient `1`. -/
theorem transfer_noncompliant_sender_silent_witness :
    (_transfer tokenCW 2 1 5).1.balances 2 = 0 ∧
    (_transfer tokenCW 2 1 5).1.balances 1 = 0 ∧
    (_transfer tokenCW 2 1 5).2 = true ∧
    (_transfer tokenCW 2 1 5).1.events = [TokenEvent.Transfer 2 1] :=
  transfer_noncompliant_sender_silent tokenCW (fun a => decide (a = 1)) 2 1 5
    rfl rfl rfl (by decide) (by decide) (by decide)

/-! ## C10 — transferFrom allowance semantics -/

/-- C10: `transferFrom` never reverts (after input decoding); when the
requested amount is at most the caller's allowance from the source
account, the allowance is reduced by exactly that amount and the requested
amount is forwarded to the internal `_transfer`; otherwise the allowance
is (re)written unchanged and a zero amount is forwarded. -/
theorem transferFrom_allowance_semantics (s : TokenState)
    (sender fromAddr toAddr amount : Nat)
    (hal : s.allowances fromAddr sender < U64) :
    (amount ≤ s.allowances fromAddr sender →
      transferFrom s sender fromAddr toAddr amount =
        _transfer { s with allowances := (Function.update s.allowances fromAddr
            (Function.update (s.allowances fromAddr) sender
              (s.allowances fromAddr sender - amount))) }
          fromAddr toAddr amount) ∧
    (s.allowances fromAddr sender < amount →
      transferFrom s sender fromAddr toAddr amount =
        _transfer { s with allowances := (Function.update s.allowances fromAddr
            (Function.update (s.allowances fromAddr) sender
              (s.allowances fromAddr sender))) }
          fromAddr toAddr 0) ∧
    (transferFrom s sender fromAddr toAddr amount).2 = true ∧
    (transferFrom s sender fromAddr toAddr amount).1.allowances fromAddr sender =
      (if amount ≤ s.allowances fromAddr sender then
        s.allowances fromAddr sender - amount
      else s.allowances fromAddr sender) := by
  refine ⟨?_, ?_, rfl, ?_⟩
  · intro h
    simp [transferFrom, h, sub64_eq_of_le h hal]
  · intro h
    simp [transferFrom, not_le.mpr h]
  · rcases le_or_lt amount (s.allowances fromAddr sender) with h | h
    · simp [transferFrom, h, sub64_eq_of_le h hal, _transfer,
        Function.update_same]
    · simp [transferFrom, not_le.mpr h, _transfer, Function.update_same, h]

/-- Witness for C10: spender `1` with allowance `60` from owner `2`,
requesting `50`. -/
theorem transferFrom_allowance_semantics_witness :
    ((50 : Nat) ≤ tokenAllow.allowances 2 1 →
      transferFrom tokenAllow 1 2 3 50 =
        _transfer { tokenAllow with allowances := (Function.update tokenAllow.allowances 2
            (Function.update (tokenAllow.allowances 2) 1
              (tokenAllow.allowances 2 1 - 50))) } 2 3 50) ∧
    (tokenAllow.allowances 2 1 < 50 →
      transferFrom tokenAllow 1 2 3 50 =
        _transfer { tokenAllow with allowances := (Function.update tokenAllow.allowances 2
            (Function.update (tokenAllow.allowances 2) 1
              (tokenAllow.allowances 2 1))) } 2 3 0) ∧
    (transferFrom tokenAllow 1 2 3 50).2 = true ∧
    (transferFrom tokenAllow 1 2 3 50).1.allowances 2 1 = 10 :=
  transferFrom_allowance_semantics tokenAllow 1 2 3 50 (by decide)

/-! ## C9 — revocation does not clear cached age verdicts -/

/-- C9: `revokeIdentity` leaves `verificationResults` untouched: any
verdict stored by a prior `isAtLeastAge` call is still returned verbatim
by `getVerificationResult` after the user's identity is revoked. -/
theorem revoke_preserves_verification_results
    (s s1 s2 : RegState) (sender user minAge : Nat) (r : Bool) (sender2 : Nat)
    (h1 : _isAtLeastAge s sender user minAge = .ok (s1, r))
    (h2 : revokeIdentity s1 sender2 user = .ok s2) :
    getVerificationResult s2 user minAge = .ok r := by
  simp only [_isAtLeastAge] at h1
  split at h1
  · exact Except.noConfusion h1
  cases hoff : s.birthYearOffsets user with
  | none => rw [hoff] at h1; exact Except.noConfusion h1
  | some off =>
    rw [hoff] at h1
    simp only [Except.ok.injEq, Prod.mk.injEq] at h1
    obtain ⟨hs1, hr⟩ := h1
    subst hs1; subst hr
    simp only [revokeIdentity] at h2
    repeat split at h2
    all_goals try exact Except.noConfusion h2
    all_goals simp only [Except.ok.injEq] at h2
    all_goals subst h2
    all_goals simp [getVerificationResult, Function.update_same]

/-- Witness for C9: attest `1`, check `isAtLeastAge(1, 18)`, revoke `1`,
then read the stale stored verdict. -/
theorem revoke_preserves_verification_results_witness :
    getVerificationResult
      (regOk (revokeIdentity (regOk ((_isAtLeastAge regA 3 1 18).map Prod.fst) reg0) 7 1) reg0)
      1 18 = .ok true :=
  revoke_preserves_verification_results regA
    (regOk ((_isAtLeastAge regA 3 1 18).map Prod.fst) reg0)
    (regOk (revokeIdentity (regOk ((_isAtLeastAge regA 3 1 18).map Prod.fst) reg0) 7 1) reg0)
    3 1 18 true 7 rfl rfl

/-! ## C7 — age boundary -/

/-- C7 (amended): for an attested user and a threshold `minAge` that does
not exceed the registry's current year offset (so the `euint8` subtraction
`currentYearOffset - minAge` cannot wrap), a stored offset of exactly
`currentYearOffset - minAge` yields encrypted `true` and a stored offset of
`currentYearOffset - minAge + 1` yields encrypted `false`.  (For
`minAge > currentYearOffset` the subtraction wraps modulo 256 and the
second half fails; see the counterexample.) -/
theorem isAtLeastAge_boundary (s : RegState) (sender user minAge : Nat)
    (hcy : s.currentYearOffset < 256) (hma : minAge ≤ s.currentYearOffset)
    (hts : s.attestationTimestamp user ≠ 0) :
    (s.birthYearOffsets user = some (s.currentYearOffset - minAge) →
      (_isAtLeastAge s sender user minAge).map (fun r => r.2) = .ok true) ∧
    (s.birthYearOffsets user = some (s.currentYearOffset - minAge + 1) →
      (_isAtLeastAge s sender user minAge).map (fun r => r.2) = .ok false) := by
  have hsub : sub8 s.currentYearOffset minAge = s.currentYearOffset - minAge := by
    have hm : minAge % 256 = minAge := Nat.mod_eq_of_lt (lt_of_le_of_lt hma hcy)
    rw [sub8, hm]
    have h1 : s.currentYearOffset + (256 - minAge) =
        (s.currentYearOffset - minAge) + 256 := by omega
    rw [h1, Nat.add_mod_right, Nat.mod_eq_of_lt (by omega)]
  constructor
  · intro hoff
    simp [_isAtLeastAge, hts, hoff, hsub, Except.map]
  · intro hoff
    simp [_isAtLeastAge, hts, hoff, hsub, Except.map]

/-- Witness for C7: current year offset `126`, threshold `18`; offset
`108` passes, offset `109` fails. -/
theorem isAtLeastAge_boundary_witness :
    (_isAtLeastAge regBoundary 3 1 18).map (fun r => r.2) = .ok true ∧
    (_isAtLeastAge regYoung 3 1 18).map (fun r => r.2) = .ok false :=
  ⟨(isAtLeastAge_boundary regBoundary 3 1 18 (by decide) (by decide) (by decide)).1 rfl,
   (isAtLeastAge_boundary regYoung 3 1 18 (by decide) (by decide) (by decide)).2 rfl⟩

/-- C7 counterexample: the claim quantifies over every threshold, but the
`euint8` subtraction wraps.  With the deployed `currentYearOffset = 126`
and `minAge = 127`, an address attested with offset
`0 = currentYearOffset - minAge + 1` (born 1900, aged 126 < 127) should
fail the check according to the claim, yet the code computes
`maxBirthYearOffset = 126 - 127 = 255 (mod 256)` and returns encrypted
`true`. -/
theorem isAtLeastAge_boundary_counterexample :
    ((126 : Int) - 127 + 1 = 0) ∧
    regWrapCex.birthYearOffsets 1 = some 0 ∧
    regWrapCex.currentYearOffset = 126 ∧
    (_isAtLeastAge regWrapCex 3 1 127).map (fun r => r.2) = .ok true :=
  ⟨by decide, rfl, rfl, rfl⟩

/-! ## C6 — checkCompliance cache and event -/

/-- C6 counterexample: an authorized `checkCompliance` call for an
UNATTESTED user overwrites the cache with encrypted `false` but does NOT
emit the claimed `ComplianceChecked` event: the unattested short-circuit
returns before the `emit`.  Concretely, a fresh registry (user `1`
unattested) and a fresh rules contract, with `1` checking itself. -/
theorem checkCompliance_unattested_no_event :
    (checkCompliance reg0 comp0 3 1 1).map
        (fun r => (r.2.1.complianceResults 1, r.2.1.events)) =
      .ok (some false, []) := rfl

/-- C6 (amended): every authorized `checkCompliance` call overwrites the
per-user cache with the returned encrypted verdict, but the
`ComplianceChecked` event is emitted only on the attested path; the
unattested short-circuit stores encrypted `false` and emits nothing. -/
theorem checkCompliance_cache_event (reg : RegState) (cs : CompState)
    (rulesAddr sender user : Nat)
    (hauth : sender = user ∨ cs.authorizedCallers sender = true) :
    (reg.attestationTimestamp user = 0 →
      checkCompliance reg cs rulesAddr sender user =
        .ok (reg, { cs with complianceResults :=
          (Function.update cs.complianceResults user (some false)) }, false)) ∧
    (∀ off, 0 < reg.attestationTimestamp user →
      reg.birthYearOffsets user = some off →
      checkCompliance reg cs rulesAddr sender user =
        .ok ({ reg with verificationResults := (Function.update reg.verificationResults user
            (Function.update (reg.verificationResults user) 18
              (some (decide (off ≤ sub8 reg.currentYearOffset 18))))) },
          { cs with
            complianceResults := (Function.update cs.complianceResults user
              (some (decide (off ≤ sub8 reg.currentYearOffset 18)))),
            events := cs.events ++ [CompEvent.ComplianceChecked user] },
          decide (off ≤ sub8 reg.currentYearOffset 18))) := by
  have hguard : ¬(sender ≠ user ∧ cs.authorizedCallers sender = false) := by
    rcases hauth with h | h
    · exact fun hc => hc.1 h
    · exact fun hc => by rw [h] at hc; exact Bool.noConfusion hc.2
  constructor
  · intro h0
    simp [checkCompliance, hguard, isAttested, h0]
  · intro off hpos hoff
    have hts : reg.attestationTimestamp user ≠ 0 := by omega
    simp [checkCompliance, hguard, isAttested, hts, hpos, isOver18,
      _isAtLeastAge, hoff]

/-- Witness for C6: self-call by attested user `1` (offset `108`,
verdict `true`) on a fresh rules contract, and self-call by unattested
user `2`. -/
theorem checkCompliance_cache_event_witness :
    (checkCompliance regBoundary comp0 3 1 1 =
      .ok ({ regBoundary with verificationResults := (Function.update regBoundary.verificationResults 1
          (Function.update (regBoundary.verificationResults 1) 18
            (some (decide ((108:Nat) ≤ sub8 regBoundary.currentYearOffset 18))))) },
        { comp0 with
          complianceResults := (Function.update comp0.complianceResults 1
            (some (decide ((108:Nat) ≤ sub8 regBoundary.currentYearOffset 18)))),
          events := comp0.events ++ [CompEvent.ComplianceChecked 1] },
        decide ((108:Nat) ≤ sub8 regBoundary.currentYearOffset 18))) ∧
    (checkCompliance regBoundary comp0 3 2 2 =
      .ok (regBoundary, { comp0 with complianceResults :=
        (Function.update comp0.complianceResults 2 (some false)) }, false)) :=
  ⟨(checkCompliance_cache_event regBoundary comp0 3 1 1 (Or.inl rfl)).2
      108 (by decide) rfl,
   (checkCompliance_cache_event regBoundary comp0 3 2 2 (Or.inl rfl)).1 rfl⟩

/-! ## C8 — webhook replay idempotence -/

/-- A delivery that passes signature verification necessarily carries a
truthy `session_id` and `status` (they are part of the signed message). -/
theorem verify_true_fields (hmac : String → String → String)
    (signature timestamp sessionId status webhookType secret : Option String)
    (h : verifyDiditSimpleSignature hmac signature timestamp sessionId status
      webhookType secret = true) :
    jsTruthy sessionId = true ∧ jsTruthy status = true := by
  unfold verifyDiditSimpleSignature at h
  split at h
  · exact Bool.noConfusion h
  · split at h
    · exact Bool.noConfusion h
    · rename_i h1 h2
      simp only [Bool.not_eq_true', Bool.not_eq_false, Bool.and_eq_true] at h1
      exact ⟨h1.1.1.2, h1.1.2⟩

/-- C8: `verifyDiditSimpleSignature` is a pure HMAC comparison with no
freshness or replay component, so an identical replay verifies exactly as
the original delivery did; the handler then finds the session, sees a
status other than `CREATED` and returns HTTP 200 immediately: the store is
unchanged and no on-chain attestation write is attempted. -/
theorem webhook_replay_idempotent (env : WebhookEnv) (db : KycDb)
    (body : WebhookBody) (sigHeader tsHeader : Option String) (sess : KycSession)
    (hsig : verifyDiditSimpleSignature env.hmacSha256 sigHeader tsHeader
      body.session_id body.status body.webhook_type env.secret = true)
    (hfind : findByDiditSessionId db (body.session_id.getD "") = some sess)
    (hterm : sess.status = KycStatus.VERIFIED ∨ sess.status = KycStatus.FAILED) :
    webhookHandler env db body sigHeader tsHeader = (db, .ok200, []) := by
  obtain ⟨hsid, hst⟩ := verify_true_fields env.hmacSha256 sigHeader tsHeader
    body.session_id body.status body.webhook_type env.secret hsig
  have hne : sess.status ≠ KycStatus.CREATED := by
    rcases hterm with h | h <;> simp [h]
  simp [webhookHandler, hsig, hsid, hst, hfind, hne]

/-- Witness for C8: a concrete `VERIFIED` session replayed with a valid
signature. -/
theorem webhook_replay_idempotent_witness :
    webhookHandler env0 db0 body0 (some "sig") (some "t") =
      (db0, .ok200, []) :=
  webhook_replay_idempotent env0 db0 body0 (some "sig") (some "t") sess0
    rfl rfl (Or.inl rfl)

/-! ## C5 — name-hash uniqueness -/

/-- C5 counterexample: the uniqueness invariant fails on the code as soon
as a registrar attests the ZERO address.  `attestIdentity(0, …, h)` stores
`nameHashToAddress[h] = address(0)`, which the duplicate check cannot
distinguish from a vacant slot, so a second attestation of address `1`
with the SAME hash `5` also succeeds: afterwards two distinct attested
addresses (`0` and `1`) hold `fullNameHash = 5`. -/
theorem attest_zero_address_breaks_uniqueness :
    (attestIdentity reg0 7 0 90 5 1 = .ok regZero1) ∧
    (attestIdentity regZero1 7 1 91 5 2 = .ok regZero2) ∧
    regZero2.fullNameHashes 0 = 5 ∧
    regZero2.fullNameHashes 1 = 5 ∧
    (0 < regZero2.attestationTimestamp 0) ∧
    (0 < regZero2.attestationTimestamp 1) ∧
    (0 : Nat) ≠ 1 :=
  ⟨rfl, rfl, rfl, rfl, by decide, by decide, by decide⟩

/-- The invariant holds at deployment. -/
theorem regInv_initial (d : Nat) : RegInv (initialRegState d) := by
  refine ⟨fun u h => ?_, fun u _ => rfl, rfl⟩
  simp [initialRegState] at h


/-- `attestIdentity` (for a nonzero user, with a positive timestamp)
preserves the invariant. -/
theorem regInv_attest (s s' : RegState) (sender user enc nameHash now : Nat)
    (huser : user ≠ 0) (hnow : 0 < now)
    (h : attestIdentity s sender user enc nameHash now = .ok s')
    (inv : RegInv s) : RegInv s' := by
  obtain ⟨inv1, inv2, inv3⟩ := inv
  simp only [attestIdentity] at h
  split at h
  · exact Except.noConfusion h
  split at h
  · exact Except.noConfusion h
  rename_i hreg hdup
  simp only [Except.ok.injEq] at h
  subst h
  have hdup' : s.nameHashToAddress nameHash = 0 ∨
      s.nameHashToAddress nameHash = user := by
    by_contra hc
    push_neg at hc
    exact hdup ⟨hc.1, hc.2⟩
  refine ⟨?_, ?_, ?_⟩
  · intro u hu
    dsimp only at hu ⊢
    by_cases huu : u = user
    · subst huu
      rw [Function.update_same, Function.update_same]
    · have hts : 0 < s.attestationTimestamp u := by
        rw [Function.update_noteq huu] at hu
        exact hu
      have hrev : s.nameHashToAddress (s.fullNameHashes u) = u := inv1 u hts
      have hfne : s.fullNameHashes u ≠ nameHash := by
        intro he
        rw [he] at hrev
        rcases hdup' with h0 | hus
        · rw [h0] at hrev
          subst hrev
          rw [inv3] at hts
          exact absurd hts (by simp)
        · rw [hus] at hrev
          exact huu hrev.symm
      rw [Function.update_noteq huu, Function.update_noteq hfne]
      split_ifs with h1 h2
      · have hfneold : s.fullNameHashes u ≠ s.fullNameHashes user := by
          intro he
          have hu2 : s.nameHashToAddress (s.fullNameHashes user) = user :=
            inv1 user h1
          rw [he, hu2] at hrev
          exact huu hrev.symm
        rw [Function.update_noteq hfneold]
        exact hrev
      · exact hrev
      · exact hrev
  · intro u hu0
    dsimp only at hu0 ⊢
    by_cases huu : u = user
    · subst huu
      rw [Function.update_same] at hu0
      omega
    · rw [Function.update_noteq huu] at hu0
      rw [Function.update_noteq huu]
      exact inv2 u hu0
  · dsimp only
    rw [Function.update_noteq (Ne.symm huser)]
    exact inv3

/-- `revokeIdentity` preserves the invariant. -/
theorem regInv_revoke (s s' : RegState) (sender user : Nat)
    (h : revokeIdentity s sender user = .ok s')
    (inv : RegInv s) : RegInv s' := by
  obtain ⟨inv1, inv2, inv3⟩ := inv
  simp only [revokeIdentity] at h
  split at h
  · exact Except.noConfusion h
  split at h
  · exact Except.noConfusion h
  rename_i hreg hts0
  simp only [Except.ok.injEq] at h
  subst h
  refine ⟨?_, ?_, ?_⟩
  · intro u hu
    dsimp only at hu ⊢
    by_cases huu : u = user
    · subst huu
      rw [Function.update_same] at hu
      exact absurd hu (by simp)
    · have htsu : 0 < s.attestationTimestamp u := by
        rw [Function.update_noteq huu] at hu
        exact hu
      have hrev : s.nameHashToAddress (s.fullNameHashes u) = u := inv1 u htsu
      rw [Function.update_noteq huu]
      split_ifs with h1
      · have hne : s.fullNameHashes u ≠ s.fullNameHashes user := by
          intro he
          have hu2 : s.nameHashToAddress (s.fullNameHashes user) = user :=
            inv1 user (Nat.pos_of_ne_zero hts0)
          rw [he, hu2] at hrev
          exact huu hrev.symm
        rw [Function.update_noteq hne]
        exact hrev
      · exact hrev
  · intro u hu0
    dsimp only at hu0 ⊢
    by_cases huu : u = user
    · subst huu
      rw [Function.update_same]
    · rw [Function.update_noteq huu] at hu0
      rw [Function.update_noteq huu]
      exact inv2 u hu0
  · dsimp only
    by_cases h0 : (0 : Nat) = user
    · rw [← h0, Function.update_same]
    · rw [Function.update_noteq h0]
      exact inv3

/-- Operations that do not touch the name/attestation fields preserve the
invariant. -/
theorem regInv_frame (s s' : RegState)
    (hfnh : s'.fullNameHashes = s.fullNameHashes)
    (hrev : s'.nameHashToAddress = s.nameHashToAddress)
    (hts : s'.attestationTimestamp = s.attestationTimestamp)
    (inv : RegInv s) : RegInv s' := by
  obtain ⟨inv1, inv2, inv3⟩ := inv
  refine ⟨?_, ?_, ?_⟩
  · intro u hu
    rw [hts] at hu
    rw [hfnh, hrev]
    exact inv1 u hu
  · intro u hu0
    rw [hts] at hu0
    rw [hfnh]
    exact inv2 u hu0
  · rw [hts]
    exact inv3

/-- Every step of the registry preserves the invariant. -/
theorem regInv_step (s s' : RegState) (st : RegStep s s') (inv : RegInv s) :
    RegInv s' := by
  cases st with
  | attest sender user enc nameHash now huser hnow h =>
    exact regInv_attest s s' sender user enc nameHash now huser hnow h inv
  | revoke sender user h =>
    exact regInv_revoke s s' sender user h inv
  | ageCheck sender user minAge r h =>
    have hs' : s'.fullNameHashes = s.fullNameHashes ∧
        s'.nameHashToAddress = s.nameHashToAddress ∧
        s'.attestationTimestamp = s.attestationTimestamp := by
      simp only [_isAtLeastAge] at h
      split at h
      · exact Except.noConfusion h
      · cases hoff : s.birthYearOffsets user with
        | none => rw [hoff] at h; exact Except.noConfusion h
        | some off =>
          rw [hoff] at h
          simp only [Except.ok.injEq, Prod.mk.injEq] at h
          rw [← h.1]
          exact ⟨rfl, rfl, rfl⟩
    exact regInv_frame s s' hs'.1 hs'.2.1 hs'.2.2 inv
  | yearUpdate sender newOffset h =>
    have hs' : s'.fullNameHashes = s.fullNameHashes ∧
        s'.nameHashToAddress = s.nameHashToAddress ∧
        s'.attestationTimestamp = s.attestationTimestamp := by
      simp only [updateCurrentYear] at h
      split at h
      · exact Except.noConfusion h
      · simp only [Except.ok.injEq] at h
        rw [← h]
        exact ⟨rfl, rfl, rfl⟩
    exact regInv_frame s s' hs'.1 hs'.2.1 hs'.2.2 inv
  | addReg sender registrar h =>
    have hs' : s'.fullNameHashes = s.fullNameHashes ∧
        s'.nameHashToAddress = s.nameHashToAddress ∧
        s'.attestationTimestamp = s.attestationTimestamp := by
      simp only [addRegistrar] at h
      split at h
      · exact Except.noConfusion h
      · simp only [Except.ok.injEq] at h
        rw [← h]
        exact ⟨rfl, rfl, rfl⟩
    exact regInv_frame s s' hs'.1 hs'.2.1 hs'.2.2 inv
  | removeReg sender registrar h =>
    have hs' : s'.fullNameHashes = s.fullNameHashes ∧
        s'.nameHashToAddress = s.nameHashToAddress ∧
        s'.attestationTimestamp = s.attestationTimestamp := by
      simp only [removeRegistrar] at h
      split at h
      · exact Except.noConfusion h
      · simp only [Except.ok.injEq] at h
        rw [← h]
        exact ⟨rfl, rfl, rfl⟩
    exact regInv_frame s s' hs'.1 hs'.2.1 hs'.2.2 inv
  | txOwner sender newOwner h =>
    have hs' : s'.fullNameHashes = s.fullNameHashes ∧
        s'.nameHashToAddress = s.nameHashToAddress ∧
        s'.attestationTimestamp = s.attestationTimestamp := by
      simp only [regTransferOwnership] at h
      split at h
      · exact Except.noConfusion h
      split at h
      · exact Except.noConfusion h
      simp only [Except.ok.injEq] at h
      rw [← h]
      exact ⟨rfl, rfl, rfl⟩
    exact regInv_frame s s' hs'.1 hs'.2.1 hs'.2.2 inv
  | acceptOwner sender h =>
    have hs' : s'.fullNameHashes = s.fullNameHashes ∧
        s'.nameHashToAddress = s.nameHashToAddress ∧
        s'.attestationTimestamp = s.attestationTimestamp := by
      simp only [regAcceptOwnership] at h
      split at h
      · exact Except.noConfusion h
      · simp only [Except.ok.injEq] at h
        rw [← h]
        exact ⟨rfl, rfl, rfl⟩
    exact regInv_frame s s' hs'.1 hs'.2.1 hs'.2.2 inv
  | grantAccess sender grantee h =>
    have hs' : s'.fullNameHashes = s.fullNameHashes ∧
        s'.nameHashToAddress = s.nameHashToAddress ∧
        s'.attestationTimestamp = s.attestationTimestamp := by
      simp only [grantAccessTo] at h
      split at h
      · exact Except.noConfusion h
      · simp only [Except.ok.injEq] at h
        rw [← h]
        exact ⟨rfl, rfl, rfl⟩
    exact regInv_frame s s' hs'.1 hs'.2.1 hs'.2.2 inv

/-- The invariant holds in every reachable state. -/
theorem regInv_reachable (d : Nat) (s : RegState) (h : RegReachable d s) :
    RegInv s := by
  unfold RegReachable at h
  induction h with
  | refl => exact regInv_initial d
  | tail h1 h2 ih => exact regInv_step _ _ h2 ih

/-- C5 (amended): in every state of the `IdentityRegistry` reachable by
calls that never attest the ZERO address (the Solidity sentinel the
duplicate check uses for a vacant reverse-index slot; see the
counterexample for why this exclusion is forced), each name hash is held
by at most one attested address; moreover re-attesting an address with a
new name hash clears the reverse-index slot of its old hash, so another
address can immediately be attested under the old hash by any
registrar. -/
theorem nameHash_unique_amended (d : Nat) (s : RegState)
    (hreach : RegReachable d s) :
    (∀ h u1 u2, 0 < s.attestationTimestamp u1 → 0 < s.attestationTimestamp u2 →
      s.fullNameHashes u1 = h → s.fullNameHashes u2 = h → u1 = u2) ∧
    (∀ sender user enc h2 now s',
      0 < s.attestationTimestamp user → s.fullNameHashes user ≠ 0 →
      s.fullNameHashes user ≠ h2 →
      attestIdentity s sender user enc h2 now = .ok s' →
      s'.nameHashToAddress (s.fullNameHashes user) = 0 ∧
      (∀ sender2 v enc2 now2, s'.registrars sender2 = true →
        (attestIdentity s' sender2 v enc2 (s.fullNameHashes user) now2).isOk = true)) := by
  have inv := regInv_reachable d s hreach
  constructor
  · intro h u1 u2 hts1 hts2 e1 e2
    have r1 := inv.1 u1 hts1
    have r2 := inv.1 u2 hts2
    rw [e1] at r1
    rw [e2] at r2
    exact r1.symm.trans r2
  · intro sender user enc h2 now s' hts hfne0 hfneh hok
    simp only [attestIdentity] at hok
    split at hok
    · exact Except.noConfusion hok
    split at hok
    · exact Except.noConfusion hok
    rename_i hreg hdup
    simp only [Except.ok.injEq] at hok
    subst hok
    have hzero : (Function.update
        (if s.fullNameHashes user ≠ 0 ∧ s.fullNameHashes user ≠ h2 then
          Function.update s.nameHashToAddress (s.fullNameHashes user) 0
        else s.nameHashToAddress) h2 user) (s.fullNameHashes user) = 0 := by
      rw [Function.update_noteq hfneh, if_pos ⟨hfne0, hfneh⟩,
        Function.update_same]
    refine ⟨hzero, ?_⟩
    intro sender2 v enc2 now2 hreg2
    dsimp only at hreg2 ⊢
    simp only [attestIdentity, hreg2, hzero]
    simp [Except.isOk, Except.toBool]

/-- Witness for C5: in the reachable state where `1` is attested with
hash `5`, uniqueness is exercised at hash `5` and the re-attestation of
`1` with hash `6` frees slot `5`, after which address `2` can be attested
under hash `5`. -/
theorem nameHash_unique_amended_witness :
    ((1 : Nat) = 1) ∧
    regB.nameHashToAddress 5 = 0 ∧
    (attestIdentity regB 7 2 92 5 3).isOk = true := by
  have hreach : RegReachable 7 regA :=
    Relation.ReflTransGen.single
      (RegStep.attest reg0 regA 7 1 90 5 1 (by decide) (by decide) rfl)
  have main := nameHash_unique_amended 7 regA hreach
  have p2 := main.2 7 1 91 6 2 regB (by decide) (by decide) (by decide) rfl
  exact ⟨main.1 5 1 1 (by decide) (by decide) rfl rfl, p2.1, p2.2 7 2 92 3 rfl⟩
